import Mathlib

/-!
Shallow embedding of the ip-app backend (an Express application with five
routes over two Postgres tables) together with proofs about its behaviour.

Modelling conventions:
* The database is a pair of in-memory tables (`users`, `ip_history`) with
  serial id counters; parameterized SQL statements become pure functions on
  this state.
* The process-wide `initialized` flag guarding `initDb` is part of the
  state (`ProcState`).
* Every route returns the new state, a trace of the side effects it issued
  (database statements and external HTTP calls, in order), and its JSON
  response modelled as an inductive value carrying exactly the fields the
  code puts in the body.
* Nondeterministic inputs of a request (the clock value used by `NOW()`,
  the external geolocation response, the bcrypt comparison function, the
  environment token) are explicit parameters.
-/

namespace IpApp

/-- Row of the `users` table: `users(id serial pk, email text unique, password text)`. -/
structure UserRow where
  id : Nat
  email : String
  password : String
deriving Repr, DecidableEq

/-- Row of the `ip_history` table: `ip_history(id serial pk, ip_address text, created_at timestamptz)`.
Timestamps are modelled as natural numbers. -/
structure HistoryRow where
  id : Nat
  ip_address : String
  created_at : Nat
deriving Repr, DecidableEq

/-- The two tables plus the serial-id counters. -/
structure DB where
  users : List UserRow
  nextUserId : Nat
  history : List HistoryRow
  nextHistoryId : Nat
deriving Repr, DecidableEq

/-- Process state: the one-time schema-initialization flag and the database. -/
structure ProcState where
  initialized : Bool
  db : DB
deriving Repr, DecidableEq

/-- A side effect issued by a route: a database statement or an external HTTP GET. -/
inductive Effect where
  | db (statement : String)
  | ext (url : String)
deriving Repr, DecidableEq

/-- Truthiness test used by the handlers on string-valued body fields:
`!x` is true in JavaScript when the field is absent or the empty string. -/
def strFalsy : Option String → Bool
  | none => true
  | some s => s.isEmpty

/-- The seeded email from `initDb`. -/
def seedEmail : String := "test@test.com"

/-- The `INSERT INTO users ... ON CONFLICT (email) DO NOTHING` seed statement. -/
def insertSeedUser (hashed : String) (db : DB) : DB :=
  if db.users.any (fun u => u.email == seedEmail) then db
  else
    { db with
      users := db.users ++ [⟨db.nextUserId, seedEmail, hashed⟩],
      nextUserId := db.nextUserId + 1 }

/-- The `initDb` function: a no-op once `initialized` is set; otherwise it
creates the two tables (always present in this model) and performs the seed
insert, then sets the flag. `hashed` stands for `bcrypt.hash("1234", 10)`. -/
def initDb (hashed : String) (s : ProcState) : ProcState × List Effect :=
  if s.initialized then (s, [])
  else
    ({ initialized := true, db := insertSeedUser hashed s.db },
     [.db "CREATE TABLE IF NOT EXISTS users",
      .db "CREATE TABLE IF NOT EXISTS ip_history",
      .db "INSERT seed user ON CONFLICT DO NOTHING"])

/-- Iterate `initDb` a given number of times. -/
def runInitDb (hashed : String) : Nat → ProcState → ProcState
  | 0, s => s
  | n + 1, s => runInitDb hashed n (initDb hashed s).1

/-- Response of `POST /api/login`. The 200 body is
`{message, user: {id, email}}`: the constructor carries exactly the two
user fields, so a password can never appear in a success response. -/
inductive LoginOut where
  | badRequest (msg : String)
  | unauthorized (msg : String)
  | ok (id : Nat) (email : String)
deriving Repr, DecidableEq

/-- HTTP status code of a login response. -/
def LoginOut.status : LoginOut → Nat
  | .badRequest _ => 400
  | .unauthorized _ => 401
  | .ok _ _ => 200

/-- The `POST /api/login` handler. `compare` stands for
`bcrypt.compare`, applied to the supplied password and the stored hash. -/
def login (compare : String → String → Bool) (hashed : String)
    (email password : Option String) (s : ProcState) :
    ProcState × List Effect × LoginOut :=
  if strFalsy email || strFalsy password then
    (s, [], .badRequest "Email and password required")
  else
    let s1 := (initDb hashed s).1
    let fx := (initDb hashed s).2 ++ [.db "SELECT id, email, password FROM users WHERE email"]
    match s1.db.users.filter (fun u => u.email == email.getD "") with
    | [] => (s1, fx, .unauthorized "User not found")
    | u :: _ =>
      if compare (password.getD "") u.password then
        (s1, fx, .ok u.id u.email)
      else
        (s1, fx, .unauthorized "Invalid password")

/-- Numeric value of a list of decimal digit characters. -/
def digitsVal (cs : List Char) : Nat :=
  cs.foldl (fun a c => a * 10 + (c.toNat - 48)) 0

/-- Split a character list on a separator character, keeping empty
fragments, with the same semantics as splitting the string. -/
def splitChar (sep : Char) : List Char → List (List Char)
  | [] => [[]]
  | c :: cs =>
    let r := splitChar sep cs
    if c == sep then [] :: r
    else
      match r with
      | [] => [[c]]
      | g :: gs => (c :: g) :: gs

/-- Modelled from the spec: one dotted-quad octet as accepted by the Node
library predicate used for the "syntactically valid IPv4" check at
lines 133 and 167 (the library is not part of this repository). Digits
only, one to three of them, value at most 255, no leading zero. -/
def isOctet (cs : List Char) : Bool :=
  0 < cs.length && cs.length ≤ 3 && cs.all Char.isDigit &&
    (cs.length == 1 || cs.headD ' ' != '0') && digitsVal cs ≤ 255

/-- Modelled from the spec: syntactically valid IPv4 address — four
dot-separated octets. -/
def isIPv4Chars (cs : List Char) : Bool :=
  let parts := splitChar '.' cs
  parts.length == 4 && parts.all isOctet

/-- One hexadecimal group of an IPv6 address: one to four hex digits. -/
def isHexGroup (cs : List Char) : Bool :=
  0 < cs.length && cs.length ≤ 4 &&
    cs.all fun c => c.isDigit || (97 ≤ c.toNat && c.toNat ≤ 102) || (65 ≤ c.toNat && c.toNat ≤ 70)

/-- Splits a character list at the first occurrence of a double colon,
if any. -/
def findDoubleColon : List Char → Option (List Char × List Char)
  | [] => none
  | [_] => none
  | a :: b :: rest =>
    if a == ':' && b == ':' then some ([], rest)
    else
      match findDoubleColon (b :: rest) with
      | some (l, r) => some (a :: l, r)
      | none => none

/-- Groups of a colon-separated fragment; the empty fragment has no groups. -/
def groupsOf (cs : List Char) : List (List Char) :=
  if cs.isEmpty then [] else splitChar ':' cs

/-- A colon-separated tail that is either all hex groups or hex groups
followed by an embedded IPv4 address; returns the group count (the IPv4
tail counts as two groups), or none if malformed. -/
def tailGroups (gs : List (List Char)) : Option Nat :=
  if gs.all isHexGroup then some gs.length
  else
    match gs.reverse with
    | [] => none
    | last :: rest =>
      if isIPv4Chars last && rest.all isHexGroup then some (gs.length + 1) else none

/-- Modelled from the spec: syntactically valid IPv6 address — eight
hex groups, optionally compressed with one `::` (standing for at least
one omitted group), optionally ending in an embedded IPv4 address. -/
def isIPv6Chars (cs : List Char) : Bool :=
  match findDoubleColon cs with
  | none =>
    match tailGroups (splitChar ':' cs) with
    | some n => n == 8
    | none => false
  | some (l, r) =>
    (groupsOf l).all isHexGroup &&
      (match findDoubleColon r with
       | some _ => false
       | none =>
         match tailGroups (groupsOf r) with
         | some n => (groupsOf l).length + n ≤ 7
         | none => false)

/-- Modelled from the spec: the IPv4/IPv6 syntax predicate (`net.isIP` in
the handlers, truthy exactly on syntactically valid IPv4 or IPv6
addresses; the library itself is not part of this repository). -/
def isIP (s : String) : Bool :=
  isIPv4Chars s.toList || isIPv6Chars s.toList

/-- The JSON body returned by the external geolocation provider. The
handlers read only its `ip` field; everything else is passed through
verbatim and is modelled by `payload`. -/
structure IpData where
  ip : String
  payload : String
deriving Repr, DecidableEq

/-- Ordering used by `ORDER BY created_at DESC`: the first row is the newer one. -/
def newerFirst (a b : HistoryRow) : Prop :=
  b.created_at ≤ a.created_at

instance : DecidableRel newerFirst := fun a b =>
  inferInstanceAs (Decidable (b.created_at ≤ a.created_at))

instance : IsTotal HistoryRow newerFirst :=
  ⟨fun a b => Nat.le_total b.created_at a.created_at⟩

instance : IsTrans HistoryRow newerFirst :=
  ⟨fun _ _ _ hab hbc => Nat.le_trans hbc hab⟩

/-- The query `SELECT id, ip_address, created_at FROM ip_history ORDER BY
created_at DESC`: the table rows sorted newest-first. -/
def selectHistoryDesc (db : DB) : List HistoryRow :=
  List.insertionSort newerFirst db.history

/-- URL built by the search and lookup handlers for an explicit IP. -/
def ipInfoUrlFor (token : Option String) (ip : String) : String :=
  match token with
  | some t => s!"https://ipinfo.io/{ip}/geo?token={t}"
  | none => s!"https://ipinfo.io/{ip}/geo"

/-- URL built by the home handler (no explicit IP). -/
def ipInfoUrlHome (token : Option String) : String :=
  match token with
  | some t => s!"https://ipinfo.io/geo?token={t}"
  | none => s!"https://ipinfo.io/geo"

/-- Response of `GET /api/home`. -/
inductive HomeOut where
  | ok (ipData : IpData) (ip_history : List HistoryRow)
  | serverError
deriving Repr, DecidableEq

/-- HTTP status code of a home response. -/
def HomeOut.status : HomeOut → Nat
  | .ok _ _ => 200
  | .serverError => 500

/-- The `GET /api/home` handler. `ext` is the outcome of the awaited
`axios.get` call (error means the promise rejected, caught as a 500). -/
def home (hashed : String) (token : Option String) (ext : Except Unit IpData)
    (s : ProcState) : ProcState × List Effect × HomeOut :=
  let s1 := (initDb hashed s).1
  let fx := (initDb hashed s).2 ++ [.ext (ipInfoUrlHome token)]
  match ext with
  | .error _ => (s1, fx, .serverError)
  | .ok d =>
    (s1, fx ++ [.db "SELECT history ORDER BY created_at DESC"],
     .ok d (selectHistoryDesc s1.db))

/-- Response of `POST /api/home/search`. -/
inductive SearchOut where
  | badRequest (msg : String)
  | ok (ipData : IpData) (ip_history : List HistoryRow)
  | serverError
deriving Repr, DecidableEq

/-- HTTP status code of a search response. -/
def SearchOut.status : SearchOut → Nat
  | .badRequest _ => 400
  | .ok _ _ => 200
  | .serverError => 500

/-- The `POST /api/home/search` handler: validate, call the provider,
insert the resolved IP with the current timestamp, re-read the history.
`now` is the clock value `NOW()` evaluates to. -/
def search (hashed : String) (token : Option String) (ext : Except Unit IpData)
    (now : Nat) (ip : Option String) (s : ProcState) :
    ProcState × List Effect × SearchOut :=
  if strFalsy ip then (s, [], .badRequest "IP address is required")
  else if isIP (ip.getD "") then
    let s1 := (initDb hashed s).1
    let fx := (initDb hashed s).2 ++ [.ext (ipInfoUrlFor token (ip.getD ""))]
    match ext with
    | .error _ => (s1, fx, .serverError)
    | .ok d =>
      let newRow : HistoryRow := ⟨s1.db.nextHistoryId, d.ip, now⟩
      let db2 :=
        { s1.db with
          history := s1.db.history ++ [newRow],
          nextHistoryId := s1.db.nextHistoryId + 1 }
      ({ s1 with db := db2 },
       fx ++ [.db "INSERT INTO ip_history", .db "SELECT history ORDER BY created_at DESC"],
       .ok d (selectHistoryDesc db2))
  else (s, [], .badRequest "Invalid IP address format")

/-- Response of `POST /api/home/lookup`. -/
inductive LookupOut where
  | badRequest (msg : String)
  | ok (ipData : IpData)
  | serverError
deriving Repr, DecidableEq

/-- HTTP status code of a lookup response. -/
def LookupOut.status : LookupOut → Nat
  | .badRequest _ => 400
  | .ok _ => 200
  | .serverError => 500

/-- The `POST /api/home/lookup` handler: same validation and external
call as search, but no history insert and no history in the response. -/
def lookup (hashed : String) (token : Option String) (ext : Except Unit IpData)
    (ip : Option String) (s : ProcState) :
    ProcState × List Effect × LookupOut :=
  if strFalsy ip then (s, [], .badRequest "IP address is required")
  else if isIP (ip.getD "") then
    let s1 := (initDb hashed s).1
    let fx := (initDb hashed s).2 ++ [.ext (ipInfoUrlFor token (ip.getD ""))]
    match ext with
    | .error _ => (s1, fx, .serverError)
    | .ok d => (s1, fx, .ok d)
  else (s, [], .badRequest "Invalid IP address format")

/-- Result of the JavaScript `Number()` coercion, as far as the delete
handler can distinguish it: an integral finite value, a non-integral
finite value, or NaN. `Number.isInteger` holds exactly for `int`. -/
inductive JSNum where
  | int (n : Int)
  | nonIntegral
  | nan
deriving Repr, DecidableEq

/-- A JSON value that can appear as an element of the `ids` array. `other`
stands for the values (undefined, objects, non-numeric arrays) whose
`Number()` coercion is NaN. -/
inductive JVal where
  | num (j : JSNum)
  | str (s : String)
  | boolean (b : Bool)
  | null
  | other
deriving Repr, DecidableEq

/-- Modelled from the spec: `Number()` on a string (the JavaScript
built-in is not part of this repository). The string is trimmed; the
empty string coerces to 0; an optional sign followed by decimal digits,
optionally a dot and fractional digits, coerces to that decimal value
(integral when the fraction is absent, empty or all zeros); everything
else is NaN. -/
def parseDecimal (s : String) : JSNum :=
  let t := ((s.toList.dropWhile Char.isWhitespace).reverse.dropWhile Char.isWhitespace).reverse
  if t.isEmpty then .int 0
  else
    let sgn : Int := if t.headD ' ' == '-' then -1 else 1
    let body := if t.headD ' ' == '-' || t.headD ' ' == '+' then t.tail else t
    let intPart := body.takeWhile Char.isDigit
    let rest := body.dropWhile Char.isDigit
    match rest with
    | [] => if intPart.isEmpty then .nan else .int (sgn * (digitsVal intPart : Int))
    | c :: frac =>
      if c == '.' && frac.all Char.isDigit then
        if intPart.isEmpty && frac.isEmpty then .nan
        else if frac.all (· == '0') then
          if intPart.isEmpty then .int 0 else .int (sgn * (digitsVal intPart : Int))
        else .nonIntegral
      else .nan

/-- Modelled from the spec: the `Number()` coercion applied to each
element of `ids` by the delete handler. Booleans coerce to 1 and 0, null
to 0, numbers to themselves, strings through `parseDecimal`. -/
def jsToNumber : JVal → JSNum
  | .num j => j
  | .str s => parseDecimal s
  | .boolean b => .int (if b then 1 else 0)
  | .null => .int 0
  | .other => .nan

/-- The filter `Number.isInteger(id) && id > 0`: keeps the coerced value
exactly when it is a positive integer. -/
def keepPos : JSNum → Option Int
  | .int n => if 0 < n then some n else none
  | _ => none

/-- `ids.map(Number).filter((id) => Number.isInteger(id) && id > 0)`. -/
def parsedIdsOf (xs : List JVal) : List Int :=
  (xs.map jsToNumber).filterMap keepPos

/-- The `ids` field of a delete request body: absent, present but not an
array, or an array of JSON values. -/
inductive IdsField where
  | absent
  | notArray
  | arr (xs : List JVal)
deriving Repr, DecidableEq

/-- Response of `DELETE /api/home/history`. -/
inductive DeleteOut where
  | badRequest (msg : String)
  | ok (ip_history : List HistoryRow)
  | serverError
deriving Repr, DecidableEq

/-- HTTP status code of a delete response. -/
def DeleteOut.status : DeleteOut → Nat
  | .badRequest _ => 400
  | .ok _ => 200
  | .serverError => 500

/-- Largest value of the Postgres `int4` type that the statement
`DELETE FROM ip_history WHERE id = ANY($1::int[])` casts the parsed ids
to: a coerced id above it makes the cast (and hence the query) raise,
which the catch block turns into a 500. The parsed ids are positive, so
the lower `int4` bound cannot be hit. -/
def int4Max : Int := 2147483647

/-- The `DELETE /api/home/history` handler: validate the `ids` array,
coerce and filter its elements, delete the matching rows
(`DELETE FROM ip_history WHERE id = ANY($1::int[])`), re-read the
history. When a parsed id exceeds the `int4` range the issued DELETE
errors out of the try block: nothing is deleted and the response is a
500 with no history. -/
def deleteHistory (hashed : String) (ids : IdsField) (s : ProcState) :
    ProcState × List Effect × DeleteOut :=
  match ids with
  | .absent => (s, [], .badRequest "At least one history item must be selected")
  | .notArray => (s, [], .badRequest "At least one history item must be selected")
  | .arr xs =>
    if xs.isEmpty then (s, [], .badRequest "At least one history item must be selected")
    else
      let parsedIds := parsedIdsOf xs
      if parsedIds.isEmpty then (s, [], .badRequest "Invalid history IDs")
      else
        let s1 := (initDb hashed s).1
        if parsedIds.all fun n => n ≤ int4Max then
          let db2 :=
            { s1.db with
              history := s1.db.history.filter fun r => !(parsedIds.contains (r.id : Int)) }
          ({ s1 with db := db2 },
           (initDb hashed s).2 ++
             [.db "DELETE FROM ip_history WHERE id = ANY", .db "SELECT history ORDER BY created_at DESC"],
           .ok (selectHistoryDesc db2))
        else
          (s1,
           (initDb hashed s).2 ++ [.db "DELETE FROM ip_history WHERE id = ANY"],
           .serverError)

/-- The `ip_history` field of a home response ([] when the body has none). -/
def HomeOut.histOf : HomeOut → List HistoryRow
  | .ok _ h => h
  | .serverError => []

/-- The `ip_history` field of a search response ([] when the body has none). -/
def SearchOut.histOf : SearchOut → List HistoryRow
  | .ok _ h => h
  | .badRequest _ => []
  | .serverError => []

/-- The `ip_history` field of a delete response ([] when the body has none). -/
def DeleteOut.histOf : DeleteOut → List HistoryRow
  | .ok h => h
  | .badRequest _ => []
  | .serverError => []

/-- Count of rows holding the seeded email. -/
def seedCount (db : DB) : Nat :=
  (db.users.filter fun u => u.email == seedEmail).length

/-- A sample database used to evaluate the theorems on concrete input. -/
def sampleDB : DB :=
  ⟨[], 1, [⟨1, "1.1.1.1", 10⟩, ⟨2, "2.2.2.2", 30⟩, ⟨3, "3.3.3.3", 20⟩], 4⟩

/-- A sample fresh process state (cold start: `initialized = false`). -/
def sampleState : ProcState := ⟨false, sampleDB⟩

/-- A sample bcrypt model for concrete evaluation: the hash of `p` is
`p ++ "#"`, and comparison checks that shape. -/
def sampleCompare (p h : String) : Bool := h == p ++ "#"

/-! Helper lemmas about `initDb`. -/

theorem initDb_history (hashed : String) (s : ProcState) :
    ((initDb hashed s).1).db.history = s.db.history := by
  unfold initDb
  split
  · rfl
  · show (insertSeedUser hashed s.db).history = s.db.history
    unfold insertSeedUser
    split <;> rfl

theorem initDb_nextHistoryId (hashed : String) (s : ProcState) :
    ((initDb hashed s).1).db.nextHistoryId = s.db.nextHistoryId := by
  unfold initDb
  split
  · rfl
  · show (insertSeedUser hashed s.db).nextHistoryId = s.db.nextHistoryId
    unfold insertSeedUser
    split <;> rfl

theorem initDb_initialized (hashed : String) (s : ProcState) :
    ((initDb hashed s).1).initialized = true := by
  unfold initDb
  split
  · assumption
  · rfl

theorem initDb_of_initialized (hashed : String) (s : ProcState)
    (h : s.initialized = true) : initDb hashed s = (s, []) := by
  unfold initDb
  simp [h]

theorem runInitDb_of_initialized (hashed : String) (n : Nat) (s : ProcState)
    (h : s.initialized = true) : runInitDb hashed n s = s := by
  induction n with
  | zero => rfl
  | succ m ih =>
    show runInitDb hashed m (initDb hashed s).1 = s
    rw [initDb_of_initialized hashed s h]
    exact ih

/-- C5: `POST /api/home/lookup` performs no insert, update, or delete on
`ip_history`: whatever the input and outcome, the history table of the
resulting state equals the history table of the initial state. -/
theorem lookup_preserves_history (hashed : String) (token : Option String)
    (ext : Except Unit IpData) (ip : Option String) (s : ProcState) :
    ((lookup hashed token ext ip s).1).db.history = s.db.history := by
  unfold lookup
  split
  · rfl
  · split
    · cases ext with
      | error e => exact initDb_history hashed s
      | ok d => exact initDb_history hashed s
    · rfl

/-- C4: a search or lookup request whose `ip` is missing (falsy) or fails
the IPv4/IPv6 syntax predicate gets a 400 response from both routes. -/
theorem invalid_ip_yields_400 (hashed : String) (token : Option String)
    (ext : Except Unit IpData) (now : Nat) (ip : Option String) (s : ProcState)
    (h : strFalsy ip = true ∨ isIP (ip.getD "") = false) :
    ((search hashed token ext now ip s).2.2).status = 400 ∧
    ((lookup hashed token ext ip s).2.2).status = 400 := by
  unfold search lookup
  rcases h with h | h
  · simp [h, SearchOut.status, LookupOut.status]
  · by_cases hf : strFalsy ip
    · simp [hf, SearchOut.status, LookupOut.status]
    · simp [hf, h, SearchOut.status, LookupOut.status]

/-- Witness for C4 at a concrete malformed address. -/
theorem invalid_ip_yields_400_witness :
    (strFalsy (some "999.1.1.1") = true ∨ isIP ((some "999.1.1.1").getD "") = false) ∧
    ((search "h" none (.error ()) 0 (some "999.1.1.1") sampleState).2.2).status = 400 ∧
    ((lookup "h" none (.error ()) (some "999.1.1.1") sampleState).2.2).status = 400 :=
  ⟨Or.inr (by decide),
   invalid_ip_yields_400 "h" none (.error ()) 0 (some "999.1.1.1") sampleState
     (Or.inr (by decide))⟩

/-- C9: for login, search and lookup, a request that fails validation is
answered 400 with an empty effect trace and an unchanged state: no
database statement (in particular no `initDb`) and no external HTTP call
happens before the 400. -/
theorem validation_precedes_effects (compare : String → String → Bool)
    (hashed : String) (token : Option String) (ext : Except Unit IpData)
    (now : Nat) (s : ProcState) :
    (∀ email password : Option String, (strFalsy email || strFalsy password) = true →
      login compare hashed email password s
        = (s, [], .badRequest "Email and password required")) ∧
    (∀ ip : Option String, strFalsy ip = true ∨ isIP (ip.getD "") = false →
      (search hashed token ext now ip s).1 = s ∧
      (search hashed token ext now ip s).2.1 = [] ∧
      ((search hashed token ext now ip s).2.2).status = 400) ∧
    (∀ ip : Option String, strFalsy ip = true ∨ isIP (ip.getD "") = false →
      (lookup hashed token ext ip s).1 = s ∧
      (lookup hashed token ext ip s).2.1 = [] ∧
      ((lookup hashed token ext ip s).2.2).status = 400) := by
  refine ⟨fun email password h => ?_, fun ip h => ?_, fun ip h => ?_⟩
  · unfold login
    simp [h]
  · unfold search
    rcases h with h | h
    · simp [h, SearchOut.status]
    · by_cases hf : strFalsy ip
      · simp [hf, SearchOut.status]
      · simp [hf, h, SearchOut.status]
  · unfold lookup
    rcases h with h | h
    · simp [h, LookupOut.status]
    · by_cases hf : strFalsy ip
      · simp [hf, LookupOut.status]
      · simp [hf, h, LookupOut.status]

/-- Witness for C9 at concrete invalid inputs. -/
theorem validation_precedes_effects_witness :
    (strFalsy none || strFalsy (some "pw")) = true ∧
    login sampleCompare "h" none (some "pw") sampleState
      = (sampleState, [], .badRequest "Email and password required") ∧
    (strFalsy (some "nope") = true ∨ isIP ((some "nope").getD "") = false) ∧
    (search "h" none (.error ()) 0 (some "nope") sampleState).1 = sampleState ∧
    (lookup "h" none (.error ()) (some "nope") sampleState).2.1 = [] := by
  have h := validation_precedes_effects sampleCompare "h" none (.error ()) 0 sampleState
  refine ⟨by decide, h.1 none (some "pw") (by decide), Or.inr (by decide), ?_, ?_⟩
  · exact (h.2.1 (some "nope") (Or.inr (by decide))).1
  · exact (h.2.2 (some "nope") (Or.inr (by decide))).2.1

/-- C6: a delete request whose `ids` is missing, not an array, an empty
array, or an array with no element coercing to a positive integer, is
answered 400 with no effect issued and the state (both tables) unchanged. -/
theorem delete_validation_400 (hashed : String) (ids : IdsField) (s : ProcState)
    (h : ids = .absent ∨ ids = .notArray ∨
         ∃ xs, ids = .arr xs ∧ parsedIdsOf xs = []) :
    (deleteHistory hashed ids s).1 = s ∧
    (deleteHistory hashed ids s).2.1 = [] ∧
    ((deleteHistory hashed ids s).2.2).status = 400 := by
  rcases h with h | h | ⟨xs, h, hp⟩ <;> subst h
  · exact ⟨rfl, rfl, rfl⟩
  · exact ⟨rfl, rfl, rfl⟩
  · unfold deleteHistory
    by_cases he : xs.isEmpty
    · simp [he, DeleteOut.status]
    · simp [he, hp, DeleteOut.status]

/-- Witness for C6 on an array whose elements all fail the coercion. -/
theorem delete_validation_400_witness :
    (IdsField.arr [.str "abc", .num .nan, .null] = .absent ∨
     IdsField.arr [.str "abc", .num .nan, .null] = .notArray ∨
     ∃ xs, IdsField.arr [.str "abc", .num .nan, .null] = .arr xs ∧ parsedIdsOf xs = []) ∧
    (deleteHistory "h" (.arr [.str "abc", .num .nan, .null]) sampleState).1 = sampleState ∧
    ((deleteHistory "h" (.arr [.str "abc", .num .nan, .null]) sampleState).2.2).status = 400 := by
  have h := delete_validation_400 "h" (.arr [.str "abc", .num .nan, .null]) sampleState
    (Or.inr (Or.inr ⟨_, rfl, by decide⟩))
  exact ⟨Or.inr (Or.inr ⟨_, rfl, by decide⟩), h.1, h.2.2⟩

theorem seedCount_insertSeedUser (hashed : String) (db : DB)
    (huniq : seedCount db ≤ 1) : seedCount (insertSeedUser hashed db) = 1 := by
  unfold insertSeedUser
  by_cases hany : db.users.any (fun u => u.email == seedEmail)
  · simp only [hany, if_true]
    rcases List.any_eq_true.mp hany with ⟨u, hu, hpu⟩
    have hne : db.users.filter (fun u => u.email == seedEmail) ≠ [] := by
      intro hnil
      have := List.filter_eq_nil_iff.mp hnil u hu
      exact this hpu
    have hpos : 1 ≤ seedCount db := by
      have := List.length_pos.mpr hne
      exact this
    exact Nat.le_antisymm huniq hpos
  · simp only [hany, if_false]
    have hnil : db.users.filter (fun u => u.email == seedEmail) = [] := by
      apply List.filter_eq_nil_iff.mpr
      intro u hu hpu
      exact hany (List.any_eq_true.mpr ⟨u, hu, hpu⟩)
    show ((db.users ++ [({ id := db.nextUserId, email := seedEmail, password := hashed } : UserRow)]).filter
      (fun u : UserRow => u.email == seedEmail)).length = 1
    rw [List.filter_append, hnil]
    simp [seedEmail]

/-- C7: schema/seed initialization is idempotent. Starting from a cold
process (`initialized = false`) whose users table respects the email
uniqueness invariant, running `initDb` any positive number of times
leaves exactly one row with the seed email, the n-th run reaches the
same state as the first, and any further run changes nothing. -/
theorem initDb_idempotent (hashed : String) (s : ProcState) (n : Nat)
    (hinit : s.initialized = false) (huniq : seedCount s.db ≤ 1) (hn : 1 ≤ n) :
    seedCount ((runInitDb hashed n s).db) = 1 ∧
    runInitDb hashed n s = runInitDb hashed 1 s ∧
    (initDb hashed (runInitDb hashed n s)).1 = runInitDb hashed n s := by
  obtain ⟨m, rfl⟩ : ∃ m, n = m + 1 := ⟨n - 1, (Nat.succ_pred_eq_of_pos hn).symm⟩
  have hstep : runInitDb hashed (m + 1) s = (initDb hashed s).1 := by
    show runInitDb hashed m (initDb hashed s).1 = (initDb hashed s).1
    exact runInitDb_of_initialized hashed m _ (initDb_initialized hashed s)
  have hone : runInitDb hashed 1 s = (initDb hashed s).1 := by
    show runInitDb hashed 0 (initDb hashed s).1 = (initDb hashed s).1
    rfl
  have hdb : ((initDb hashed s).1).db = insertSeedUser hashed s.db := by
    unfold initDb
    simp [hinit]
  refine ⟨?_, hstep.trans hone.symm, ?_⟩
  · rw [hstep, hdb]
    exact seedCount_insertSeedUser hashed s.db huniq
  · rw [hstep]
    rw [initDb_of_initialized hashed _ (initDb_initialized hashed s)]

/-- Witness for C7: two runs on a concrete cold state. -/
theorem initDb_idempotent_witness :
    sampleState.initialized = false ∧ seedCount sampleState.db ≤ 1 ∧ 1 ≤ 2 ∧
    seedCount ((runInitDb "h" 2 sampleState).db) = 1 ∧
    runInitDb "h" 2 sampleState = runInitDb "h" 1 sampleState := by
  have h := initDb_idempotent "h" sampleState 2 rfl (by decide) (by decide)
  exact ⟨rfl, by decide, by decide, h.1, h.2.1⟩

/-- C2: the login route answers 400 when email or password is missing,
401 when no user row has the email, 401 when the bcrypt comparison fails,
and otherwise 200 with a user object carrying exactly the id and the
email (the `LoginOut.ok` constructor has no password field). -/
theorem login_spec (compare : String → String → Bool) (hashed : String)
    (email password : Option String) (s : ProcState) :
    ((strFalsy email || strFalsy password) = true →
      (login compare hashed email password s).2.2
        = .badRequest "Email and password required" ∧
      ((login compare hashed email password s).2.2).status = 400) ∧
    ((strFalsy email || strFalsy password) = false →
      (((initDb hashed s).1).db.users.filter (fun u => u.email == email.getD "") = [] →
        (login compare hashed email password s).2.2 = .unauthorized "User not found" ∧
        ((login compare hashed email password s).2.2).status = 401) ∧
      (∀ u rest,
        ((initDb hashed s).1).db.users.filter (fun u => u.email == email.getD "") = u :: rest →
        (compare (password.getD "") u.password = false →
          (login compare hashed email password s).2.2 = .unauthorized "Invalid password" ∧
          ((login compare hashed email password s).2.2).status = 401) ∧
        (compare (password.getD "") u.password = true →
          (login compare hashed email password s).2.2 = .ok u.id u.email ∧
          ((login compare hashed email password s).2.2).status = 200))) := by
  constructor
  · intro h
    unfold login
    simp [h, LoginOut.status]
  · intro h
    constructor
    · intro hnil
      unfold login
      simp [h, hnil, LoginOut.status]
    · intro u rest hcons
      constructor
      · intro hcmp
        unfold login
        simp [h, hcons, hcmp, LoginOut.status]
      · intro hcmp
        unfold login
        simp [h, hcons, hcmp, LoginOut.status]

/-- Witness for C2: the seeded user logs in with the right password on a
concrete state and bcrypt model. -/
theorem login_spec_witness :
    (strFalsy (some "test@test.com") || strFalsy (some "1234")) = false ∧
    ((initDb "1234#" sampleState).1).db.users.filter
        (fun u => u.email == (some "test@test.com").getD "")
      = [{ id := 1, email := "test@test.com", password := "1234#" }] ∧
    sampleCompare ((some "1234").getD "") "1234#" = true ∧
    (login sampleCompare "1234#" (some "test@test.com") (some "1234") sampleState).2.2
      = .ok 1 "test@test.com" := by
  have h := (login_spec sampleCompare "1234#" (some "test@test.com") (some "1234")
    sampleState).2 (by decide)
  exact ⟨by decide, by decide,
    by decide,
    ((h.2 { id := 1, email := "test@test.com", password := "1234#" } [] (by decide)).2
      (by decide)).1⟩

theorem mem_parsedIdsOf (xs : List JVal) (x : JVal) (n : Int)
    (hx : x ∈ xs) (hn : keepPos (jsToNumber x) = some n) : n ∈ parsedIdsOf xs := by
  unfold parsedIdsOf
  exact List.mem_filterMap.mpr ⟨jsToNumber x, List.mem_map.mpr ⟨x, hx, rfl⟩, hn⟩

theorem parsedIdsOf_ne_isEmpty (xs : List JVal) (hne : parsedIdsOf xs ≠ []) :
    (parsedIdsOf xs).isEmpty = false := by
  cases hp : parsedIdsOf xs with
  | nil => exact absurd hp hne
  | cons a l => rfl

theorem xs_ne_of_parsedIds_ne (xs : List JVal) (hne : parsedIdsOf xs ≠ []) :
    xs.isEmpty = false := by
  cases xs with
  | nil => exact absurd rfl hne
  | cons a l => rfl

theorem forall_of_all_int4 (l : List Int)
    (h : (l.all fun n => n ≤ int4Max) = true) : ∀ n ∈ l, n ≤ int4Max :=
  fun n hn => of_decide_eq_true (List.all_eq_true.mp h n hn)

theorem all_int4_of_forall (l : List Int) (h : ∀ n ∈ l, n ≤ int4Max) :
    (l.all fun n => n ≤ int4Max) = true :=
  List.all_eq_true.mpr fun n hn => decide_eq_true (h n hn)

theorem deleteHistory_ok (hashed : String) (xs : List JVal) (s : ProcState)
    (hne : parsedIdsOf xs ≠ []) (hrange : ∀ n ∈ parsedIdsOf xs, n ≤ int4Max) :
    (deleteHistory hashed (.arr xs) s).1.db.history
      = s.db.history.filter (fun r => !((parsedIdsOf xs).contains (r.id : Int))) ∧
    (deleteHistory hashed (.arr xs) s).2.2
      = .ok (List.insertionSort newerFirst
          ((deleteHistory hashed (.arr xs) s).1.db.history)) := by
  have hxe := xs_ne_of_parsedIds_ne xs hne
  have hpe := parsedIdsOf_ne_isEmpty xs hne
  have hall := all_int4_of_forall (parsedIdsOf xs) hrange
  unfold deleteHistory
  simp only [hxe, hpe, hall, Bool.false_eq_true, if_false, if_true, selectHistoryDesc]
  constructor
  · rw [initDb_history]
  · trivial

theorem deleteHistory_err (hashed : String) (xs : List JVal) (s : ProcState)
    (hne : parsedIdsOf xs ≠ [])
    (hbig : ((parsedIdsOf xs).all fun n => n ≤ int4Max) = false) :
    (deleteHistory hashed (.arr xs) s).1.db.history = s.db.history ∧
    (deleteHistory hashed (.arr xs) s).2.2 = .serverError := by
  have hxe := xs_ne_of_parsedIds_ne xs hne
  have hpe := parsedIdsOf_ne_isEmpty xs hne
  unfold deleteHistory
  simp only [hxe, hpe, hbig, Bool.false_eq_true, if_false]
  constructor
  · rw [initDb_history]
  · trivial

/-- Counterexample to C3 as stated: the id `5000000000` coerces to a
positive integer, so the claim demands a 200 deleting those rows and
returning the remaining history, but `5000000000` exceeds the `int4`
range of the cast in the DELETE statement, so the route answers 500,
deletes nothing and returns no history. -/
theorem delete_spec_counterexample :
    parsedIdsOf [.num (.int 5000000000)] = [5000000000] ∧
    (deleteHistory "h" (.arr [.num (.int 5000000000)]) sampleState).2.2 = .serverError ∧
    ((deleteHistory "h" (.arr [.num (.int 5000000000)]) sampleState).2.2).status = 500 ∧
    (deleteHistory "h" (.arr [.num (.int 5000000000)]) sampleState).1.db.history
      = sampleState.db.history := by
  refine ⟨by decide, by decide, by decide, by decide⟩

/-- C3 (amended): a delete request whose `ids` coerce to a non-empty id
set all of whose elements fit the `int4` range removes exactly the
history rows whose id is in the set, keeps every other row, and returns
the remaining history newest-first. -/
theorem delete_spec (hashed : String) (xs : List JVal) (s : ProcState)
    (hne : parsedIdsOf xs ≠ [])
    (hrange : ∀ n ∈ parsedIdsOf xs, n ≤ int4Max) :
    (deleteHistory hashed (.arr xs) s).1.db.history
      = s.db.history.filter (fun r => !((parsedIdsOf xs).contains (r.id : Int))) ∧
    (∀ r : HistoryRow, r ∈ (deleteHistory hashed (.arr xs) s).1.db.history ↔
      r ∈ s.db.history ∧ (parsedIdsOf xs).contains (r.id : Int) = false) ∧
    (deleteHistory hashed (.arr xs) s).2.2
      = .ok (List.insertionSort newerFirst
          ((deleteHistory hashed (.arr xs) s).1.db.history)) ∧
    List.Sorted newerFirst (((deleteHistory hashed (.arr xs) s).2.2).histOf) ∧
    List.Perm (((deleteHistory hashed (.arr xs) s).2.2).histOf)
      ((deleteHistory hashed (.arr xs) s).1.db.history) := by
  obtain ⟨hhist, hout⟩ := deleteHistory_ok hashed xs s hne hrange
  refine ⟨hhist, ?_, hout, ?_, ?_⟩
  · intro r
    rw [hhist]
    simp [List.mem_filter]
  · rw [hout]
    exact List.sorted_insertionSort newerFirst _
  · rw [hout]
    exact List.perm_insertionSort newerFirst _

/-- Witness for C3 on a concrete state and an in-range id set. -/
theorem delete_spec_witness :
    parsedIdsOf [.num (.int 1), .num (.int 3)] ≠ [] ∧
    (∀ n ∈ parsedIdsOf [.num (.int 1), .num (.int 3)], n ≤ int4Max) ∧
    (deleteHistory "h" (.arr [.num (.int 1), .num (.int 3)]) sampleState).1.db.history
      = sampleState.db.history.filter
          (fun r => !((parsedIdsOf [.num (.int 1), .num (.int 3)]).contains (r.id : Int))) ∧
    (deleteHistory "h" (.arr [.num (.int 1), .num (.int 3)]) sampleState).2.2
      = .ok (List.insertionSort newerFirst
          ((deleteHistory "h" (.arr [.num (.int 1), .num (.int 3)]) sampleState).1.db.history)) := by
  have h := delete_spec "h" [.num (.int 1), .num (.int 3)] sampleState (by decide) (by decide)
  exact ⟨by decide, by decide, h.1, h.2.2.1⟩

/-- Counterexample to C10 as stated: a singleton list holding a
coercible positive integer for which the claim demands success, yet the
request does not succeed — the coerced id exceeds the `int4` range of
the cast in the DELETE statement and the route answers 500 (still not
400) without deleting. -/
theorem delete_coercion_counterexample :
    keepPos (jsToNumber (.num (.int 5000000000))) = some 5000000000 ∧
    ((deleteHistory "h" (.arr [.num (.int 5000000000)]) sampleState).2.2).status = 500 := by
  refine ⟨by decide, by decide⟩

/-- C10 (amended): the delete route coerces ids with the JavaScript
Number function; numeric strings and `true` count as their numeric
values, every non-coercible element is dropped, and a mixed list with at
least one coercible positive integer never yields 400; when in addition
every kept id fits the `int4` range the route succeeds (200) and deletes
exactly the rows named by the coercible subset. -/
theorem delete_coercion_spec (hashed : String) (xs : List JVal) (s : ProcState)
    (x : JVal) (n : Int) (hx : x ∈ xs) (hn : keepPos (jsToNumber x) = some n) :
    jsToNumber (.str "3") = .int 3 ∧
    jsToNumber (.boolean true) = .int 1 ∧
    ((deleteHistory hashed (.arr xs) s).2.2).status ≠ 400 ∧
    ((∀ m ∈ parsedIdsOf xs, m ≤ int4Max) →
      ((deleteHistory hashed (.arr xs) s).2.2).status = 200 ∧
      (deleteHistory hashed (.arr xs) s).1.db.history
        = s.db.history.filter (fun r => !((parsedIdsOf xs).contains (r.id : Int)))) := by
  have hne : parsedIdsOf xs ≠ [] := by
    intro hnil
    have := mem_parsedIdsOf xs x n hx hn
    rw [hnil] at this
    exact List.not_mem_nil n this
  refine ⟨rfl, rfl, ?_, fun hrange => ?_⟩
  · cases hall : (parsedIdsOf xs).all fun m => m ≤ int4Max with
    | true =>
      obtain ⟨_, hout⟩ := deleteHistory_ok hashed xs s hne
        (forall_of_all_int4 (parsedIdsOf xs) hall)
      rw [hout]
      show (200 : Nat) ≠ 400
      decide
    | false =>
      obtain ⟨_, hout⟩ := deleteHistory_err hashed xs s hne hall
      rw [hout]
      show (500 : Nat) ≠ 400
      decide
  · obtain ⟨hhist, hout⟩ := deleteHistory_ok hashed xs s hne hrange
    refine ⟨?_, hhist⟩
    rw [hout]
    rfl

/-- Witness for C10 on a mixed list: a numeric string, a non-coercible
string and a boolean, all kept ids in the `int4` range. -/
theorem delete_coercion_spec_witness :
    JVal.str "3" ∈ [JVal.str "3", JVal.str "abc", JVal.boolean true] ∧
    keepPos (jsToNumber (.str "3")) = some 3 ∧
    ((deleteHistory "h" (.arr [.str "3", .str "abc", .boolean true]) sampleState).2.2).status
      ≠ 400 ∧
    ((deleteHistory "h" (.arr [.str "3", .str "abc", .boolean true]) sampleState).2.2).status
      = 200 ∧
    (deleteHistory "h" (.arr [.str "3", .str "abc", .boolean true]) sampleState).1.db.history
      = sampleState.db.history.filter
          (fun r => !((parsedIdsOf [.str "3", .str "abc", .boolean true]).contains (r.id : Int))) := by
  have h := delete_coercion_spec "h" [.str "3", .str "abc", .boolean true] sampleState
    (.str "3") 3 (by decide) (by decide)
  have h4 := h.2.2.2 (by decide)
  exact ⟨by decide, by decide, h.2.2.1, h4.1, h4.2⟩

theorem head_insertionSort_fresh (l : List HistoryRow) (a : HistoryRow)
    (h : ∀ y ∈ l, y.created_at < a.created_at) :
    (List.insertionSort newerFirst (l ++ [a])).head? = some a := by
  have hsorted := List.sorted_insertionSort newerFirst (l ++ [a])
  have hperm := List.perm_insertionSort newerFirst (l ++ [a])
  cases hL : List.insertionSort newerFirst (l ++ [a]) with
  | nil =>
    exfalso
    have hlen := hperm.length_eq
    rw [hL] at hlen
    simp at hlen
  | cons hd tl =>
    rw [hL] at hsorted hperm
    have hdmem : hd ∈ l ++ [a] := hperm.subset (List.mem_cons_self hd tl)
    have hamem : a ∈ hd :: tl := hperm.symm.subset (by simp)
    rcases List.mem_append.mp hdmem with hmem | hmem
    · exfalso
      have hlt := h hd hmem
      rcases List.mem_cons.mp hamem with heq | hta
      · rw [heq] at hlt
        exact Nat.lt_irrefl _ hlt
      · have hle : a.created_at ≤ hd.created_at := (List.sorted_cons.mp hsorted).1 a hta
        exact Nat.lt_irrefl _ (Nat.lt_of_lt_of_le hlt hle)
    · have heq : hd = a := by simpa using hmem
      rw [heq]
      rfl

/-- C1: a successful search inserts the resolved IP (the `ip` field of
the provider response) into history with the current clock value, then
re-reads; when every pre-existing row is strictly older than the clock,
the head of the returned history is the new row, so a search for
`8.8.8.8` whose provider response resolves to `8.8.8.8` yields a head
entry with that address and a `created_at` at or after the request start. -/
theorem search_spec (hashed : String) (token : Option String) (d : IpData)
    (now start : Nat) (ip : String) (s : ProcState)
    (hip : isIP ip = true)
    (hfresh : ∀ r ∈ s.db.history, r.created_at < now)
    (hstart : start ≤ now) :
    ((search hashed token (.ok d) now (some ip) s).2.2).status = 200 ∧
    (search hashed token (.ok d) now (some ip) s).1.db.history
      = s.db.history
          ++ [{ id := s.db.nextHistoryId, ip_address := d.ip, created_at := now }] ∧
    (((search hashed token (.ok d) now (some ip) s).2.2).histOf).head?
      = some { id := s.db.nextHistoryId, ip_address := d.ip, created_at := now } ∧
    (d.ip = "8.8.8.8" →
      ∃ r : HistoryRow,
        (((search hashed token (.ok d) now (some ip) s).2.2).histOf).head? = some r ∧
        r.ip_address = "8.8.8.8" ∧ start ≤ r.created_at) := by
  have hfalsy : strFalsy (some ip) = false := by
    show ip.isEmpty = false
    cases he : ip.isEmpty with
    | false => rfl
    | true =>
      exfalso
      have hemp : ip = "" := (String.isEmpty_iff ip).mp he
      rw [hemp] at hip
      exact absurd hip (by decide)
  have hgetD : (some ip).getD "" = ip := rfl
  unfold search
  rw [hfalsy, hgetD, hip]
  simp only [Bool.false_eq_true, if_false, if_true, SearchOut.status, SearchOut.histOf,
    selectHistoryDesc]
  rw [initDb_history, initDb_nextHistoryId]
  have hhead :
      (List.insertionSort newerFirst (s.db.history
        ++ [{ id := s.db.nextHistoryId, ip_address := d.ip, created_at := now }])).head?
      = some { id := s.db.nextHistoryId, ip_address := d.ip, created_at := now } :=
    head_insertionSort_fresh _ _ (fun y hy => hfresh y hy)
  refine ⟨by trivial, by trivial, hhead, fun hdip => ?_⟩
  exact ⟨_, hhead, hdip, hstart⟩

/-- Witness for C1: searching for 8.8.8.8 on a concrete state with the
provider resolving to 8.8.8.8. -/
theorem search_spec_witness :
    isIP "8.8.8.8" = true ∧
    (∀ r ∈ sampleState.db.history, r.created_at < 40) ∧
    ((35 : Nat) ≤ 40) ∧
    (((search "h" none (.ok ⟨"8.8.8.8", "geo"⟩) 40 (some "8.8.8.8") sampleState).2.2).histOf).head?
      = some { id := 4, ip_address := "8.8.8.8", created_at := 40 } := by
  have h := search_spec "h" none ⟨"8.8.8.8", "geo"⟩ 40 35 "8.8.8.8" sampleState
    (by decide) (by decide) (by decide)
  exact ⟨by decide, by decide, by decide, h.2.2.1⟩

/-- C8: every history list returned by a route (home, search, delete) is
sorted by `created_at` descending. -/
theorem histories_sorted (hashed : String) (token : Option String)
    (ext : Except Unit IpData) (now : Nat) (ip : Option String)
    (ids : IdsField) (s : ProcState) :
    List.Sorted newerFirst (((home hashed token ext s).2.2).histOf) ∧
    List.Sorted newerFirst (((search hashed token ext now ip s).2.2).histOf) ∧
    List.Sorted newerFirst (((deleteHistory hashed ids s).2.2).histOf) := by
  refine ⟨?_, ?_, ?_⟩
  · unfold home
    cases ext with
    | error e => exact List.sorted_nil
    | ok d =>
      show List.Sorted newerFirst (selectHistoryDesc _)
      exact List.sorted_insertionSort newerFirst _
  · unfold search
    by_cases hf : strFalsy ip
    · simp only [hf, if_true]
      exact List.sorted_nil
    · simp only [hf, Bool.false_eq_true, if_false]
      by_cases hip : isIP (ip.getD "")
      · simp only [hip, if_true]
        cases ext with
        | error e => exact List.sorted_nil
        | ok d =>
          show List.Sorted newerFirst (selectHistoryDesc _)
          exact List.sorted_insertionSort newerFirst _
      · simp only [hip, Bool.false_eq_true, if_false]
        exact List.sorted_nil
  · unfold deleteHistory
    cases ids with
    | absent => exact List.sorted_nil
    | notArray => exact List.sorted_nil
    | arr xs =>
      by_cases he : xs.isEmpty
      · simp only [he, if_true]
        exact List.sorted_nil
      · simp only [he, Bool.false_eq_true, if_false]
        by_cases hp : (parsedIdsOf xs).isEmpty
        · simp only [hp, if_true]
          exact List.sorted_nil
        · simp only [hp, Bool.false_eq_true, if_false]
          cases hall : (parsedIdsOf xs).all fun m => m ≤ int4Max with
          | true =>
            simp only [hall, if_true]
            show List.Sorted newerFirst (selectHistoryDesc _)
            exact List.sorted_insertionSort newerFirst _
          | false =>
            simp only [hall, Bool.false_eq_true, if_false]
            exact List.sorted_nil

end IpApp
